import Mathlib

/-!
Verification development for the chiriin semi-dynamic correction engine.

The Python sources embedded here are `src/chiriin/semidynamic.py` and
`src/config.py`.  Python `Decimal` values are modelled as exact rationals
(`ℚ`): the spec fixes "exact decimal arithmetic", and every division the
engine performs (`/ 225`, `/ 150`, `/ 3600`) is applied to quantities whose
distance from the nearest decision boundary is far above `Decimal`'s
28-significant-digit context, so truncation in `Decimal` division never
changes a branch taken below.  Fallible Python code is embedded with
`Except PyErr`; the external `chiriin.mesh.MeshCode` capability (its file is
not part of the sources) is a parameter `mcOf : ℚ → ℚ → Option String`,
`none` standing for a failed resolution (an exception inside the guarded
region, or a `None` code).
-/

namespace Chiriin

/-- Correction vector, `Delta` of `src/config.py` (`delta_x`, `delta_y`,
`delta_z` in arc-seconds). -/
structure Delta where
  delta_x : ℚ
  delta_y : ℚ
  delta_z : ℚ
deriving DecidableEq, Repr

/-- One mesh corner, `MeshDesign` of `src/config.py`: its name, its
position in arc-seconds and its standard mesh code. -/
structure MeshDesign where
  name : String
  lon : ℚ
  lat : ℚ
  standard_mesh_code : String
deriving DecidableEq, Repr

/-- A 2-d coordinate, `XY` of `src/config.py`. -/
structure XY where
  x : ℚ
  y : ℚ
deriving DecidableEq, Repr

/-- The Python exceptions the embedded code can raise. -/
inductive PyErr where
  /-- `KeyError` from `SemiDynamic._get_delta`, carrying the missing mesh code. -/
  | keyError (code : String)
  /-- `AttributeError`: the `{"lon": False, "lat": False}` dict returned by
  `_calc_correction_2d_delta` is accessed as if it were a `Delta`. -/
  | attributeError
  /-- `UnboundLocalError`/`NameError`: a local read before any assignment. -/
  | nameError
  /-- `ValueError`, carrying its message. -/
  | valueError (msg : String)
  /-- `IndexError` from `[...][0]` on an empty list. -/
  | indexError
  /-- `AssertionError` from a failed `assert`. -/
  | assertionError
deriving DecidableEq, Repr

/-- Round a rational to an integer, ties to even: the rounding of Python
`Decimal` quantization (`ROUND_HALF_EVEN`). -/
def roundHalfEven (q : ℚ) : ℤ :=
  let f := ⌊q⌋
  let r := q - f
  if r < 1/2 then f
  else if 1/2 < r then f + 1
  else if f % 2 = 0 then f else f + 1

/-- Python `round(x, 1)` on a `Decimal`: one decimal place, ties to even. -/
def round1 (q : ℚ) : ℚ := (roundHalfEven (q * 10) : ℚ) / 10

/-- Python `int(x)`: truncation toward zero. -/
def truncToward0 (q : ℚ) : ℤ := if q < 0 then ⌈q⌉ else ⌊q⌋

/-- The four corners `SemiDynamic.mesh_design` returns. -/
structure MeshDesigns where
  lower_left : MeshDesign
  lower_right : MeshDesign
  upper_left : MeshDesign
  upper_right : MeshDesign
deriving DecidableEq, Repr

/-- `SemiDynamic._adjust_mesh_code` (src/chiriin/semidynamic.py lines
136-168): offset the lower-left arc-second position by `lonp`/`latp` and
resolve the mesh code of the offset position.  `none` models `MeshCode`
raising. -/
def adjust_mesh_code (mcOf : ℚ → ℚ → Option String)
    (lower_left_sec_lon lower_left_sec_lat lonp latp : ℚ) (name : String) :
    Option MeshDesign :=
  let sec_lon := lower_left_sec_lon + lonp
  let sec_lat := lower_left_sec_lat + latp
  (mcOf (sec_lon / 3600) (sec_lat / 3600)).map
    (fun code => ⟨name, sec_lon, sec_lat, code⟩)

/-- `SemiDynamic.mesh_design` (src/chiriin/semidynamic.py lines 94-134):
round the query's arc-second coordinates to one decimal place, truncate
`sec/225` (longitude) and `sec/150` (latitude) toward zero to get the
lower-left corner, offset the other three corners, resolve all four mesh
codes.  The Python `try`/`except` that turns any resolution failure into
`False` is the `Option` (`none` = `False`). -/
def mesh_design (mcOf : ℚ → ℚ → Option String) (lon lat : ℚ) :
    Option MeshDesigns :=
  let lower_left_sec_lon := round1 (lon * 3600)
  let lower_left_sec_lat := round1 (lat * 3600)
  let m := truncToward0 (lower_left_sec_lon / 225)
  let n := truncToward0 (lower_left_sec_lat / 150)
  let ll_lon : ℚ := m * 225
  let ll_lat : ℚ := n * 150
  match mcOf (ll_lon / 3600) (ll_lat / 3600),
      adjust_mesh_code mcOf ll_lon ll_lat 225 0 "lower_right",
      adjust_mesh_code mcOf ll_lon ll_lat 0 150 "upper_left",
      adjust_mesh_code mcOf ll_lon ll_lat 225 150 "upper_right" with
  | some code, some lr, some ul, some ur =>
      some ⟨⟨"lower_left", ll_lon, ll_lat, code⟩, lr, ul, ur⟩
  | _, _, _, _ => none

/-- Result of `SemiDynamic._calc_correction_2d_delta`: either a `Delta`, or
the untyped `{"lon": False, "lat": False}` dict it returns when
`mesh_design` came back `False`. -/
inductive CalcResult where
  | delta (d : Delta)
  | falseDict
deriving DecidableEq, Repr

/-- `SemiDynamic._get_delta` (src/chiriin/semidynamic.py lines 192-215):
look the mesh code up in the parameter table; a missing row raises
`KeyError` carrying the code.  The table `pd.DataFrame` is embedded as a
partial map from mesh code to `Delta`. -/
def get_delta (table : String → Option Delta) (mesh_code : String) :
    Except PyErr Delta :=
  match table mesh_code with
  | none => .error (.keyError mesh_code)
  | some d => .ok d

/-- `SemiDynamic._calc_correction_2d_delta` (src/chiriin/semidynamic.py
lines 217-270): resolve the four corners, look up their vectors (lower_left
first, as `_get_delta_sets` does), form `x_norm`/`y_norm` from the corner
positions, combine the corner vectors with the code's weight pattern, and
negate both components when `return_to_original` is true.  `delta_z` of the
result is literally `0`. -/
def calc_correction_2d_delta (mcOf : ℚ → ℚ → Option String)
    (table : String → Option Delta) (lon lat : ℚ)
    (return_to_original : Bool) : Except PyErr CalcResult :=
  match mesh_design mcOf lon lat with
  | none => .ok .falseDict
  | some md => do
    let lon_sec := lon * 3600
    let lat_sec := lat * 3600
    let lower_left_delta ← get_delta table md.lower_left.standard_mesh_code
    let lower_right_delta ← get_delta table md.lower_right.standard_mesh_code
    let upper_left_delta ← get_delta table md.upper_left.standard_mesh_code
    let upper_right_delta ← get_delta table md.upper_right.standard_mesh_code
    let x_norm := (lon_sec - md.lower_left.lon) /
      (md.lower_right.lon - md.lower_left.lon)
    let y_norm := (lat_sec - md.lower_left.lat) /
      (md.upper_left.lat - md.lower_left.lat)
    let delta_lon_p :=
      (1 - y_norm) * (1 - x_norm) * lower_left_delta.delta_x
      + y_norm * (1 - x_norm) * lower_right_delta.delta_x
      + y_norm * x_norm * upper_right_delta.delta_x
      + (1 - y_norm) * x_norm * upper_left_delta.delta_x
    let delta_lat_p :=
      (1 - y_norm) * (1 - x_norm) * lower_left_delta.delta_y
      + y_norm * (1 - x_norm) * lower_right_delta.delta_y
      + y_norm * x_norm * upper_right_delta.delta_y
      + (1 - y_norm) * x_norm * upper_left_delta.delta_y
    if return_to_original then
      pure (.delta ⟨-delta_lon_p, -delta_lat_p, 0⟩)
    else
      pure (.delta ⟨delta_lon_p, delta_lat_p, 0⟩)

/-- The non-iterable branch of `SemiDynamic.correction_2d`
(src/chiriin/semidynamic.py lines 282-286): apply the computed delta to the
point.  When `_calc_correction_2d_delta` returned the failure dict, the
attribute access `delta.delta_x` raises `AttributeError`. -/
def correction_2d_single (mcOf : ℚ → ℚ → Option String)
    (table : String → Option Delta) (lon lat : ℚ)
    (return_to_original : Bool) : Except PyErr XY :=
  match calc_correction_2d_delta mcOf table lon lat return_to_original with
  | .error e => .error e
  | .ok .falseDict => .error .attributeError
  | .ok (.delta d) => .ok ⟨lon + d.delta_x / 3600, lat + d.delta_y / 3600⟩

/-- The loop state of the iterable branch of `correction_2d`:
`previous_mesh_code`, the local `delta` (`none` = not yet assigned), and a
count of the `_calc_correction_2d_delta` invocations made so far (the
"underlying interpolation computations"). -/
structure BatchState where
  previous_mesh_code : Option String
  delta : Option CalcResult
  calcCount : ℕ
deriving DecidableEq, Repr

/-- One iteration of the loop in `correction_2d` (src/chiriin/semidynamic.py
lines 290-300): recompute the delta when the point's standard mesh code is
`None` or differs from the previous one, otherwise reuse the stored delta.
Reading `delta` before any assignment raises (`nameError`); applying the
failure dict raises `AttributeError`. -/
def batchStep (mcOf : ℚ → ℚ → Option String)
    (calcF : ℚ → ℚ → Except PyErr CalcResult) (st : BatchState)
    (lon lat : ℚ) : Except PyErr (BatchState × XY) := do
  let mesh_code := mcOf lon lat
  let st' ←
    match mesh_code with
    | none => do
        let r ← calcF lon lat
        pure (⟨none, some r, st.calcCount + 1⟩ : BatchState)
    | some c =>
        if some c ≠ st.previous_mesh_code then do
          let r ← calcF lon lat
          pure (⟨some c, some r, st.calcCount + 1⟩ : BatchState)
        else
          pure st
  match st'.delta with
  | none => .error .nameError
  | some .falseDict => .error .attributeError
  | some (.delta d) =>
      .ok (st', ⟨lon + d.delta_x / 3600, lat + d.delta_y / 3600⟩)

/-- The iterable branch of `correction_2d` (src/chiriin/semidynamic.py lines
287-301), iterating `zip(self.lon, self.lat, strict=True)`: pairs are
consumed in order and `strict=True` raises `ValueError` when one sequence is
exhausted before the other.  Returns the corrected points and the final loop
state. -/
def correction_2d_go (mcOf : ℚ → ℚ → Option String)
    (calcF : ℚ → ℚ → Except PyErr CalcResult) :
    BatchState → List ℚ → List ℚ → Except PyErr (List XY × BatchState)
  | st, [], [] => .ok ([], st)
  | _, [], _ :: _ => .error (.valueError "zip() argument lengths differ")
  | _, _ :: _, [] => .error (.valueError "zip() argument lengths differ")
  | st, lon :: lons, lat :: lats => do
      let (st', xy) ← batchStep mcOf calcF st lon lat
      let (rest, stF) ← correction_2d_go mcOf calcF st' lons lats
      pure (xy :: rest, stF)

/-- The loop state before the first iteration: `previous_mesh_code = None`,
`delta` unassigned, no computation done yet. -/
def initState : BatchState := ⟨none, none, 0⟩

/-- The iterable branch of `correction_2d` with the real
`_calc_correction_2d_delta` plugged in, from the initial loop state. -/
def correction_2d_iterable (mcOf : ℚ → ℚ → Option String)
    (table : String → Option Delta) (lons lats : List ℚ)
    (return_to_original : Bool) : Except PyErr (List XY × BatchState) :=
  correction_2d_go mcOf
    (fun lon lat => calc_correction_2d_delta mcOf table lon lat return_to_original)
    initState lons lats

/-- A mesh-code resolver that never fails, for concrete evaluations. -/
def mcOfConst : ℚ → ℚ → Option String := fun _ _ => some "M"

/-- A resolver that labels the four corners of the cell
`[0, 225″] × [0, 150″]` with distinct codes. -/
def mcOfCell : ℚ → ℚ → Option String := fun lonDeg latDeg =>
  some (if latDeg = 0 then (if lonDeg = 0 then "LL" else "LR")
        else (if lonDeg = 0 then "UL" else "UR"))

/-- Python's substring test `sub in s`, on the underlying character list. -/
def containsSubAux (sub : List Char) : List Char → Bool
  | [] => sub.isEmpty
  | c :: rest => sub.isPrefixOf (c :: rest) || containsSubAux sub rest

/-- Python `sub in s` on strings. -/
def pyStrContains (s sub : String) : Bool := containsSubAux sub.data s.data

/-- A date at the precision file selection uses: calendar year and month. -/
structure PyDatetime where
  year : ℤ
  month : ℕ
deriving DecidableEq, Repr

/-- The fiscal-year computation of
`SemidynamicCorrectionFiles._get_file_path` (src/config.py lines 69-73):
months 1-3 use the previous calendar year. -/
def fiscalYear (dt : PyDatetime) : ℤ :=
  if dt.month < 4 then dt.year - 1 else dt.year

/-- `SemidynamicCorrectionFiles._get_file_path` (src/config.py lines
60-75): `[file for file in self.files if str(year) in file][0]` — the first
file whose name contains the fiscal-year string; `[0]` on an empty list
raises `IndexError`. -/
def get_file_path (files : List String) (dt : PyDatetime) :
    Except PyErr String :=
  match (files.filter
      (fun file => pyStrContains file (toString (fiscalYear dt)))).head? with
  | none => .error .indexError
  | some file => .ok file

/-- The text encodings `semidynamic_correction_file` tries, in order. -/
inductive PyEncoding where
  | utf8
  | shift_jis
  | cp932
deriving DecidableEq, Repr

/-- How one `read_file` attempt can fail: a `UnicodeDecodeError`, or any
other exception (a parse failure, a missing file, ...). -/
inductive ReadErr where
  | unicodeDecodeError
  | otherError
deriving DecidableEq, Repr

/-- The encoding list of `semidynamic_correction_file` (src/config.py line
157). -/
def encodings : List PyEncoding := [.utf8, .shift_jis, .cp932]

/-- The message of the `ValueError` raised at src/config.py line 165. -/
def allEncodingsMsg : String :=
  "Failed to read the file with all encodings.use encofings: utf-8, shift_jis, cp932"

/-- The loop body of `semidynamic_correction_file` (src/config.py lines
156-165), generic in the parsed table type `α` and in the behaviour
`readFile` of `SemidynamicCorrectionFiles.read_file` under each encoding:
return the first successful parse; skip an encoding whose read raises
`UnicodeDecodeError`; turn any other exception into the aggregated
`ValueError`; and — falling off the `for` loop — return Python's implicit
`None` when every encoding raised `UnicodeDecodeError`. -/
def semidynamic_correction_file_go {α : Type}
    (readFile : PyEncoding → Except ReadErr α) :
    List PyEncoding → Except PyErr (Option α)
  | [] => .ok none
  | enc :: rest =>
    match readFile enc with
    | .ok t => .ok (some t)
    | .error .unicodeDecodeError => semidynamic_correction_file_go readFile rest
    | .error .otherError => .error (.valueError allEncodingsMsg)

/-- `semidynamic_correction_file` (src/config.py lines 139-165). -/
def semidynamic_correction_file {α : Type}
    (readFile : PyEncoding → Except ReadErr α) : Except PyErr (Option α) :=
  semidynamic_correction_file_go readFile encodings

/-- A longitude/latitude constructor argument of `SemiDynamic.__init__`: a
scalar (dimensionality 0) or a flat batch (dimensionality 1). -/
inductive LonLatInput where
  | scalar (q : ℚ)
  | batch (l : List ℚ)
deriving DecidableEq, Repr

/-- `dimensional_count` (src/chiriin/utils.py lines 48-86) on the inputs the
corrector accepts: 0 for a scalar, 1 for a flat sequence (also when empty). -/
def dimensionalCount : LonLatInput → ℕ
  | .scalar _ => 0
  | .batch _ => 1

/-- What `SemiDynamic.__init__` (src/chiriin/semidynamic.py lines 18-34)
records: whether the parameter file was read and whether the inputs are
iterable. -/
structure InitTrace where
  fileRead : Bool
  is_iterable : Bool
deriving DecidableEq, Repr

/-- `SemiDynamic.__init__` together with `_convert_lon_lat`
(src/chiriin/semidynamic.py lines 18-55): the only validation is the
`assert` that longitude and latitude have the same dimensionality; when it
passes, `_read_parameters()` — the parameter-file read — runs
unconditionally.  Batch lengths are never compared here. -/
def semidynamic_init (lon lat : LonLatInput) : Except PyErr InitTrace :=
  if dimensionalCount lon = dimensionalCount lat then
    .ok ⟨true, dimensionalCount lon ≠ 0⟩
  else
    .error .assertionError

example : round1 ((6249 / 100000 : ℚ) * 3600) = 225 := by
  norm_num [round1, roundHalfEven]
example : truncToward0 ((225 : ℚ) / 225) = 1 := by
  norm_num [truncToward0]
example :
    (mesh_design mcOfConst (6249 / 100000) 0).map
      (fun md => md.lower_left.lon) = some 225 := by
  norm_num [mesh_design, adjust_mesh_code, round1, roundHalfEven, truncToward0,
    mcOfConst]

/-! Claims C7 and C8: parameter-file discovery and parsing
(`src/config.py`). -/

/-- C7: with the encodings `utf-8, shift_jis, cp932` tried in order, the
first encoding whose read succeeds yields the table, a non-decode exception
yields the aggregated `ValueError` — but when EVERY encoding raises
`UnicodeDecodeError` the function falls off its `for` loop and silently
returns `None`, although both the claim and the function's own docstring
promise a `ValueError` naming the encodings in that case. -/
theorem semidynamic_correction_file_silent_none :
    semidynamic_correction_file
        (fun _ => (.error .unicodeDecodeError : Except ReadErr Unit)) =
      .ok none ∧
    semidynamic_correction_file
        (fun enc => if enc = .cp932 then (.ok 7 : Except ReadErr ℕ)
                    else .error .unicodeDecodeError) =
      .ok (some 7) ∧
    semidynamic_correction_file
        (fun _ => (.error .otherError : Except ReadErr Unit)) =
      .error (.valueError allEncodingsMsg) := by
  refine ⟨rfl, ?_, rfl⟩
  rfl

/-- C8, counterexample: two files both embed the fiscal-year string 2024,
yet `_get_file_path` silently returns the first of them instead of failing
on the ambiguity. -/
theorem get_file_path_ambiguous_pick :
    (["SemiDyna2024.par", "SemiDyna2024_copy.par"].filter
        (fun f => pyStrContains f (toString (fiscalYear ⟨2024, 5⟩)))).length
      = 2 ∧
    get_file_path ["SemiDyna2024.par", "SemiDyna2024_copy.par"] ⟨2024, 5⟩ =
      .ok "SemiDyna2024.par" := by
  constructor
  · decide
  · rfl

/-- C8, amended: `_get_file_path` returns the FIRST file whose name contains
the fiscal-year string.  It does fail (`IndexError` from `[0]`) when no file
matches, and returns the unique match when exactly one does, but an
ambiguous set of several matches is silently resolved to the first match
rather than rejected. -/
theorem get_file_path_first_of_matches (files : List String)
    (dt : PyDatetime) :
    (files.filter (fun f => pyStrContains f (toString (fiscalYear dt))) = []
      → get_file_path files dt = .error .indexError) ∧
    (∀ f, files.filter (fun f => pyStrContains f (toString (fiscalYear dt)))
        = [f] → get_file_path files dt = .ok f) ∧
    (∀ f rest,
      files.filter (fun f => pyStrContains f (toString (fiscalYear dt)))
        = f :: rest → get_file_path files dt = .ok f) := by
  refine ⟨fun h => ?_, fun f h => ?_, fun f rest h => ?_⟩ <;>
    simp [get_file_path, h]

/-- C8, witness: a unique match is returned. -/
theorem get_file_path_first_of_matches_witness :
    get_file_path ["SemiDyna2023.par", "SemiDyna2024.par"] ⟨2024, 4⟩ =
      .ok "SemiDyna2024.par" :=
  (get_file_path_first_of_matches
    ["SemiDyna2023.par", "SemiDyna2024.par"] ⟨2024, 4⟩).2.1
    "SemiDyna2024.par" (by decide)

/-! Claim C9: batch-length validation (`SemiDynamic.__init__`,
`_convert_lon_lat`, and the `zip(..., strict=True)` of `correction_2d`). -/

/-- C9, counterexample: longitude/latitude batches of unequal length pass
construction — the `assert` only compares dimensionalities, which are both
1 — and the parameter file IS read (`fileRead = true`); the failure
surfaces only inside `correction_2d`, as the `ValueError` of
`zip(strict=True)`, after the file I/O. -/
theorem init_length_mismatch_reads_file :
    semidynamic_init (.batch [0, 1/32]) (.batch [0]) = .ok ⟨true, true⟩ ∧
    correction_2d_iterable mcOfCell (fun _ => some ⟨0, 0, 0⟩) [0, 1/32] [0]
        true =
      .error (.valueError "zip() argument lengths differ") := by
  constructor
  · rfl
  · norm_num [correction_2d_iterable, correction_2d_go, batchStep, initState,
      calc_correction_2d_delta, mesh_design, adjust_mesh_code, round1,
      roundHalfEven, truncToward0, mcOfCell, get_delta, Except.bind]
    simp [bind, Except.bind, Except.instMonad, Except.map]

/-- The strict `zip` of `correction_2d` never yields a result list for
sequences of unequal length: some exception always surfaces. -/
theorem correction_2d_go_length_mismatch (mcOf : ℚ → ℚ → Option String)
    (calcF : ℚ → ℚ → Except PyErr CalcResult) :
    ∀ (la lb : List ℚ) (st : BatchState), la.length ≠ lb.length →
      ∃ e, correction_2d_go mcOf calcF st la lb = .error e := by
  intro la
  induction la with
  | nil =>
    intro lb st h
    cases lb with
    | nil => exact absurd rfl h
    | cons b bs => exact ⟨_, rfl⟩
  | cons a as ih =>
    intro lb st h
    cases lb with
    | nil => exact ⟨_, rfl⟩
    | cons b bs =>
      have h2 : as.length ≠ bs.length := by simpa using h
      match hstep : batchStep mcOf calcF st a b with
      | .error e =>
        exact ⟨e, by simp [correction_2d_go, hstep, bind, Except.bind]⟩
      | .ok (st', xy) =>
        obtain ⟨e, he⟩ := ih bs st' h2
        exact ⟨e, by simp [correction_2d_go, hstep, bind, Except.bind, he]⟩

/-- C9, amended: construction validates only the dimensionality of the
longitude/latitude inputs — a scalar paired with a batch fails the `assert`
before any file I/O, but two flat batches always pass it, whatever their
lengths, and the parameter file is then read unconditionally.  Batches of
unequal length make `correction_2d` fail later (never return a result
list), through the strict `zip`. -/
theorem init_validates_dimensionality_not_length (la lb : List ℚ) (q : ℚ) :
    semidynamic_init (.batch la) (.batch lb) = .ok ⟨true, true⟩ ∧
    semidynamic_init (.scalar q) (.batch lb) = .error .assertionError ∧
    (la.length ≠ lb.length → ∀ mcOf calcF st,
      ∃ e, correction_2d_go mcOf calcF st la lb = .error e) := by
  exact ⟨rfl, rfl, fun hlen mcOf calcF st =>
    correction_2d_go_length_mismatch mcOf calcF la lb st hlen⟩

/-- C9, witness: the amended statement at a concrete mismatched input. -/
theorem init_validates_dimensionality_witness :
    ∃ e, correction_2d_go mcOfConst (fun _ _ => .ok .falseDict) initState
      [0, 1] [0] = .error e :=
  (init_validates_dimensionality_not_length [0, 1] [0] 0).2.2 (by decide)
    mcOfConst (fun _ _ => .ok .falseDict) initState

/-! Claims C5, C10 and C6: the batch loop of `correction_2d`. -/

/-- Once the loop state holds mesh code `c` and a computed delta, a run of
points that all resolve to `c` reuses that delta verbatim: no further
`_calc_correction_2d_delta` call is made and the state is unchanged. -/
theorem correction_2d_go_reuse (mcOf : ℚ → ℚ → Option String)
    (calcF : ℚ → ℚ → Except PyErr CalcResult) (c : String) (d : Delta)
    (k : ℕ) :
    ∀ (lons lats : List ℚ),
      List.Forall₂ (fun a b => mcOf a b = some c) lons lats →
      correction_2d_go mcOf calcF ⟨some c, some (.delta d), k⟩ lons lats =
        .ok (List.zipWith
              (fun a b => ⟨a + d.delta_x / 3600, b + d.delta_y / 3600⟩)
              lons lats,
            ⟨some c, some (.delta d), k⟩) := by
  intro lons
  induction lons with
  | nil =>
    intro lats h
    cases h
    rfl
  | cons a as ih =>
    intro lats h
    cases h with
    | cons hab hrest =>
      rename_i b bs
      have hstep : batchStep mcOf calcF ⟨some c, some (.delta d), k⟩ a b =
          .ok (⟨some c, some (.delta d), k⟩,
            ⟨a + d.delta_x / 3600, b + d.delta_y / 3600⟩) := by
        simp [batchStep, hab, bind, Except.bind, pure, Except.pure]
      simp [correction_2d_go, hstep, bind, Except.bind, pure, Except.pure,
        ih bs hrest]

/-- C5: in the batch path, points whose standard mesh code equals the
immediately preceding point's reuse the previously computed correction
verbatim; a batch whose points all resolve to one mesh code `c` performs
exactly ONE `_calc_correction_2d_delta` computation (the final
`calcCount` is 1), and every output applies that single delta `d`,
computed at the first point, to the respective input point. -/
theorem correction_2d_batch_single_computation
    (mcOf : ℚ → ℚ → Option String)
    (calcF : ℚ → ℚ → Except PyErr CalcResult) (c : String) (d : Delta)
    (lon0 lat0 : ℚ) (lons lats : List ℚ)
    (hall : List.Forall₂ (fun a b => mcOf a b = some c)
      (lon0 :: lons) (lat0 :: lats))
    (hcalc : calcF lon0 lat0 = .ok (.delta d)) :
    correction_2d_go mcOf calcF initState (lon0 :: lons) (lat0 :: lats) =
      .ok (List.zipWith
            (fun a b => ⟨a + d.delta_x / 3600, b + d.delta_y / 3600⟩)
            (lon0 :: lons) (lat0 :: lats),
          ⟨some c, some (.delta d), 1⟩) := by
  cases hall with
  | cons hab hrest =>
    have hstep : batchStep mcOf calcF initState lon0 lat0 =
        .ok (⟨some c, some (.delta d), 1⟩,
          ⟨lon0 + d.delta_x / 3600, lat0 + d.delta_y / 3600⟩) := by
      simp [batchStep, initState, hab, hcalc, bind, Except.bind, pure,
        Except.pure]
    simp [correction_2d_go, hstep, bind, Except.bind, pure, Except.pure,
      correction_2d_go_reuse mcOf calcF c d 1 lons lats hrest]

/-- C5, witness: a two-point batch in one cell, corrected with one
computation. -/
theorem correction_2d_batch_single_computation_witness :
    correction_2d_go mcOfConst (fun _ _ => .ok (.delta ⟨7, 11, 0⟩))
        initState [0, 1/32] [0, 1/48] =
      .ok ([⟨0 + 7/3600, 0 + 11/3600⟩, ⟨1/32 + 7/3600, 1/48 + 11/3600⟩],
        ⟨some "M", some (.delta ⟨7, 11, 0⟩), 1⟩) := by
  simpa using correction_2d_batch_single_computation mcOfConst
    (fun _ _ => .ok (.delta ⟨7, 11, 0⟩)) "M" ⟨7, 11, 0⟩ 0 0 [1/32] [1/48]
    (List.Forall₂.cons rfl (List.Forall₂.cons rfl List.Forall₂.nil)) rfl

/-- A successful `batchStep` always leaves a computed (non-dict) delta in
the loop state, and its output applies exactly that delta. -/
theorem batchStep_ok_state (mcOf : ℚ → ℚ → Option String)
    (calcF : ℚ → ℚ → Except PyErr CalcResult) (st st' : BatchState)
    (a b : ℚ) (xy : XY)
    (h : batchStep mcOf calcF st a b = .ok (st', xy)) :
    ∃ d, st'.delta = some (.delta d) ∧
      xy = ⟨a + d.delta_x / 3600, b + d.delta_y / 3600⟩ ∧
      st.calcCount ≤ st'.calcCount := by
  rcases hmc : mcOf a b with _ | c
  · rcases hcf : calcF a b with e | r
    · simp [batchStep, hmc, hcf, bind, Except.bind] at h
    · rcases r with d | _
      · simp [batchStep, hmc, hcf, bind, Except.bind, pure, Except.pure] at h
        exact ⟨d, by simp [← h.1], by simp [← h.2], by simp [← h.1]⟩
      · simp [batchStep, hmc, hcf, bind, Except.bind, pure, Except.pure] at h
  · by_cases hc : some c = st.previous_mesh_code
    · rcases hd : st.delta with _ | r
      · simp [batchStep, hmc, ← hc, hd, bind, Except.bind, pure,
          Except.pure] at h
      · rcases r with d | _
        · simp [batchStep, hmc, ← hc, hd, bind, Except.bind, pure,
            Except.pure] at h
          exact ⟨d, by simp [← h.1, hd], by simp [← h.2], by simp [← h.1]⟩
        · simp [batchStep, hmc, ← hc, hd, bind, Except.bind, pure,
            Except.pure] at h
    · rcases hcf : calcF a b with e | r
      · simp [batchStep, hmc, hc, hcf, bind, Except.bind] at h
      · rcases r with d | _
        · simp [batchStep, hmc, hc, hcf, bind, Except.bind, pure,
            Except.pure] at h
          exact ⟨d, by simp [← h.1], by simp [← h.2], by simp [← h.1]⟩
        · simp [batchStep, hmc, hc, hcf, bind, Except.bind, pure,
            Except.pure] at h

/-- A `batchStep` from a state that satisfies the loop invariant — a delta
is stored, or no previous mesh code is recorded (as before the first
iteration) — never raises `nameError`, provided the computation itself does
not. -/
theorem batchStep_no_nameError (mcOf : ℚ → ℚ → Option String)
    (calcF : ℚ → ℚ → Except PyErr CalcResult) (st : BatchState) (a b : ℚ)
    (hst : st.delta.isSome ∨ st.previous_mesh_code = none)
    (hcf : calcF a b ≠ .error .nameError) :
    batchStep mcOf calcF st a b ≠ .error .nameError := by
  rcases hmc : mcOf a b with _ | c
  · rcases hcalc : calcF a b with e | r
    · simp [batchStep, hmc, hcalc, bind, Except.bind]
      intro he
      exact hcf (by rw [hcalc, he])
    · rcases r with d | _ <;>
        simp [batchStep, hmc, hcalc, bind, Except.bind, pure, Except.pure]
  · by_cases hc : some c = st.previous_mesh_code
    · have hsome : ∃ r, st.delta = some r := by
        rcases hst with hst | hst
        · exact Option.isSome_iff_exists.mp hst
        · rw [hst] at hc
          exact absurd hc (by simp)
      obtain ⟨r, hr⟩ := hsome
      rcases r with d | _ <;>
        simp [batchStep, hmc, ← hc, hr, bind, Except.bind, pure, Except.pure]
    · rcases hcalc : calcF a b with e | r
      · simp [batchStep, hmc, hc, hcalc, bind, Except.bind]
        intro he
        exact hcf (by rw [hcalc, he])
      · rcases r with d | _ <;>
          simp [batchStep, hmc, hc, hcalc, bind, Except.bind, pure,
            Except.pure]

/-- The batch loop, started from any state satisfying the loop invariant,
never raises `nameError` when the underlying computation never does. -/
theorem correction_2d_go_no_nameError (mcOf : ℚ → ℚ → Option String)
    (calcF : ℚ → ℚ → Except PyErr CalcResult)
    (hcf : ∀ a b, calcF a b ≠ .error .nameError) :
    ∀ (lons lats : List ℚ) (st : BatchState),
      st.delta.isSome ∨ st.previous_mesh_code = none →
      correction_2d_go mcOf calcF st lons lats ≠ .error .nameError := by
  intro lons
  induction lons with
  | nil =>
    intro lats st hst
    cases lats <;> simp [correction_2d_go]
  | cons a as ih =>
    intro lats st hst
    cases lats with
    | nil => simp [correction_2d_go]
    | cons b bs =>
      rcases hstep : batchStep mcOf calcF st a b with e | ⟨st', xy⟩
      · have := batchStep_no_nameError mcOf calcF st a b hst (hcf a b)
        simp [correction_2d_go, hstep, bind, Except.bind]
        intro he
        exact this (by rw [hstep, he])
      · obtain ⟨d, hd, -, -⟩ :=
          batchStep_ok_state mcOf calcF st st' a b xy hstep
        have hnext := ih bs st' (Or.inl (by simp [hd]))
        rcases hrest : correction_2d_go mcOf calcF st' as bs with e | pr
        · simp [correction_2d_go, hstep, bind, Except.bind, hrest]
          intro he
          exact hnext (by rw [hrest, he])
        · simp [correction_2d_go, hstep, bind, Except.bind, hrest, pure,
            Except.pure]

/-- The only exception `_calc_correction_2d_delta` itself raises is the
`KeyError` of a missing parameter-table row. -/
theorem calc_correction_2d_delta_error_is_keyError
    (mcOf : ℚ → ℚ → Option String) (table : String → Option Delta)
    (lon lat : ℚ) (rto : Bool) (e : PyErr)
    (h : calc_correction_2d_delta mcOf table lon lat rto = .error e) :
    ∃ code, e = .keyError code := by
  rcases hmd : mesh_design mcOf lon lat with _ | md
  · simp [calc_correction_2d_delta, hmd] at h
  · rcases h1 : table md.lower_left.standard_mesh_code with _ | d1
    · simp [calc_correction_2d_delta, hmd, get_delta, h1, bind,
        Except.bind] at h
      exact ⟨_, h.symm⟩
    rcases h2 : table md.lower_right.standard_mesh_code with _ | d2
    · simp [calc_correction_2d_delta, hmd, get_delta, h1, h2, bind,
        Except.bind] at h
      exact ⟨_, h.symm⟩
    rcases h3 : table md.upper_left.standard_mesh_code with _ | d3
    · simp [calc_correction_2d_delta, hmd, get_delta, h1, h2, h3, bind,
        Except.bind] at h
      exact ⟨_, h.symm⟩
    rcases h4 : table md.upper_right.standard_mesh_code with _ | d4
    · simp [calc_correction_2d_delta, hmd, get_delta, h1, h2, h3, h4, bind,
        Except.bind] at h
      exact ⟨_, h.symm⟩
    · rcases rto with _ | _ <;>
        simp [calc_correction_2d_delta, hmd, get_delta, h1, h2, h3, h4,
          bind, Except.bind, pure, Except.pure] at h

/-- Monotonicity of the computation counter along the batch loop. -/
theorem correction_2d_go_calcCount_mono (mcOf : ℚ → ℚ → Option String)
    (calcF : ℚ → ℚ → Except PyErr CalcResult) :
    ∀ (lons lats : List ℚ) (st : BatchState) (outs : List XY)
      (stF : BatchState),
      correction_2d_go mcOf calcF st lons lats = .ok (outs, stF) →
      st.calcCount ≤ stF.calcCount := by
  intro lons
  induction lons with
  | nil =>
    intro lats st outs stF h
    cases lats with
    | nil =>
      simp [correction_2d_go] at h
      simp [← h.2]
    | cons b bs => simp [correction_2d_go] at h
  | cons a as ih =>
    intro lats st outs stF h
    cases lats with
    | nil => simp [correction_2d_go] at h
    | cons b bs =>
      rcases hstep : batchStep mcOf calcF st a b with e | ⟨st', xy⟩
      · simp [correction_2d_go, hstep, bind, Except.bind] at h
      · rcases hrest : correction_2d_go mcOf calcF st' as bs with e | ⟨rest, stF2⟩
        · simp [correction_2d_go, hstep, bind, Except.bind, hrest] at h
        · simp [correction_2d_go, hstep, bind, Except.bind, hrest, pure,
            Except.pure] at h
          obtain ⟨-, -, hcount⟩ :=
            (batchStep_ok_state mcOf calcF st st' a b xy hstep).choose_spec
          exact le_trans hcount (by
            have := ih bs st' rest stF2 hrest
            simpa [← h.2] using this)

/-- C10: in the batch path, the first point's correction is always freshly
computed: starting from `previous_mesh_code = None` and an unassigned
`delta`, the first iteration necessarily takes a recomputation branch, so
(i) the loop never reads an uninitialized `delta` — `nameError` is
impossible for the real pipeline, whose computation raises only `KeyError`
— and (ii) whenever the batch succeeds, the first output applies a delta
`d` that `_calc_correction_2d_delta` returned for the first point itself,
and at least one computation was performed. -/
theorem correction_2d_first_point_fresh :
    (∀ (mcOf : ℚ → ℚ → Option String) (table : String → Option Delta)
      (rto : Bool) (lons lats : List ℚ),
      correction_2d_iterable mcOf table lons lats rto ≠
        .error .nameError) ∧
    (∀ (mcOf : ℚ → ℚ → Option String)
      (calcF : ℚ → ℚ → Except PyErr CalcResult) (lon0 lat0 : ℚ)
      (lons lats : List ℚ) (outs : List XY) (stF : BatchState),
      correction_2d_go mcOf calcF initState (lon0 :: lons) (lat0 :: lats) =
        .ok (outs, stF) →
      ∃ d, calcF lon0 lat0 = .ok (.delta d) ∧
        outs.head? = some ⟨lon0 + d.delta_x / 3600,
          lat0 + d.delta_y / 3600⟩ ∧
        1 ≤ stF.calcCount) := by
  constructor
  · intro mcOf table rto lons lats
    refine correction_2d_go_no_nameError mcOf _ ?_ lons lats initState
      (Or.inr rfl)
    intro a b hcontra
    obtain ⟨code, hcode⟩ := calc_correction_2d_delta_error_is_keyError
      mcOf table a b rto _ hcontra
    exact PyErr.noConfusion hcode
  · intro mcOf calcF lon0 lat0 lons lats outs stF h
    rcases hstep : batchStep mcOf calcF initState lon0 lat0 with e | ⟨st', xy⟩
    · simp [correction_2d_go, hstep, bind, Except.bind] at h
    · rcases hrest : correction_2d_go mcOf calcF st' lons lats
          with e | ⟨rest, stF2⟩
      · simp [correction_2d_go, hstep, bind, Except.bind, hrest] at h
      · simp [correction_2d_go, hstep, bind, Except.bind, hrest, pure,
          Except.pure] at h
        have hfresh : ∃ d, calcF lon0 lat0 = .ok (.delta d) ∧
            st' = ⟨mcOf lon0 lat0, some (.delta d), 1⟩ ∧
            xy = ⟨lon0 + d.delta_x / 3600, lat0 + d.delta_y / 3600⟩ := by
          rcases hmc : mcOf lon0 lat0 with _ | c
          · rcases hcf : calcF lon0 lat0 with e | r
            · simp [batchStep, hmc, hcf, bind, Except.bind] at hstep
            · rcases r with d | _
              · simp [batchStep, hmc, hcf, initState, bind, Except.bind,
                  pure, Except.pure] at hstep
                exact ⟨d, rfl, by simp [← hstep.1], by simp [← hstep.2]⟩
              · simp [batchStep, hmc, hcf, initState, bind, Except.bind,
                  pure, Except.pure] at hstep
          · rcases hcf : calcF lon0 lat0 with e | r
            · simp [batchStep, hmc, hcf, initState, bind, Except.bind] at hstep
            · rcases r with d | _
              · simp [batchStep, hmc, hcf, initState, bind, Except.bind,
                  pure, Except.pure] at hstep
                exact ⟨d, rfl, by simp [← hstep.1], by simp [← hstep.2]⟩
              · simp [batchStep, hmc, hcf, initState, bind, Except.bind,
                  pure, Except.pure] at hstep
        obtain ⟨d, hcf, hst, hxy⟩ := hfresh
        refine ⟨d, hcf, ?_, ?_⟩
        · simp [← h.1, hxy]
        · have hmono := correction_2d_go_calcCount_mono mcOf calcF lons lats
            st' rest stF2 hrest
          rw [hst] at hmono
          simpa [← h.2] using hmono

/-- C10, witness: a concrete singleton batch, freshly computed. -/
theorem correction_2d_first_point_fresh_witness :
    ∃ d, (fun _ _ => (.ok (.delta ⟨3, 5, 0⟩) : Except PyErr CalcResult))
        (0 : ℚ) (0 : ℚ) = .ok (.delta d) ∧
      ([(⟨0 + 3/3600, 0 + 5/3600⟩ : XY)].head? =
        some ⟨0 + d.delta_x / 3600, 0 + d.delta_y / 3600⟩) ∧
      1 ≤ (⟨some "M", some (.delta ⟨3, 5, 0⟩), 1⟩ : BatchState).calcCount :=
  correction_2d_first_point_fresh.2 mcOfConst
    (fun _ _ => .ok (.delta ⟨3, 5, 0⟩)) 0 0 [] []
    [⟨0 + 3/3600, 0 + 5/3600⟩] ⟨some "M", some (.delta ⟨3, 5, 0⟩), 1⟩
    (by rfl)

/-- A mesh-code resolver that always fails, modelling a query at the grid
boundary. -/
def mcOfFail : ℚ → ℚ → Option String := fun _ _ => none

/-- A parameter table with no row for the upper-right corner code `UR`. -/
def tableNoUR : String → Option Delta := fun c =>
  if c = "UR" then none else some ⟨0, 0, 0⟩

/-- C6, counterexample: neither failure is isolated into an "unavailable"
marker.  A grid-boundary failure makes the single-point call raise
`AttributeError` (the `{"lon": False, "lat": False}` dict is accessed as a
`Delta`), and a mesh code missing from the table makes the batch call abort
with the propagated `KeyError` instead of continuing with a marker at the
failed position. -/
theorem correction_2d_failures_not_isolated :
    correction_2d_single mcOfFail (fun _ => some ⟨0, 0, 0⟩) (1/32) 0 true =
      .error .attributeError ∧
    correction_2d_iterable mcOfCell tableNoUR [1/32, 1/32] [0, 0] true =
      .error (.keyError "UR") := by
  constructor
  · rfl
  · norm_num [correction_2d_iterable, correction_2d_go, batchStep, initState,
      calc_correction_2d_delta, mesh_design, adjust_mesh_code, round1,
      roundHalfEven, truncToward0, mcOfCell, get_delta, tableNoUR,
      Except.bind]
    simp [bind, Except.bind, Except.instMonad, Except.map]

/-- C6, amended: failures are raised, not isolated.  When corner resolution
fails, `_calc_correction_2d_delta` returns its untyped failure dict and the
single-point `correction_2d` then raises `AttributeError`; when the
lower-left corner's mesh code has no table row, the single-point call
raises that `KeyError`; and any exception of the first point's computation
propagates out of the batch loop, aborting the whole batch with no result
list. -/
theorem correction_2d_failure_propagation
    (mcOf : ℚ → ℚ → Option String) (table : String → Option Delta)
    (lon lat : ℚ) (rto : Bool) (lons lats : List ℚ) :
    (mesh_design mcOf lon lat = none →
      correction_2d_single mcOf table lon lat rto =
        .error .attributeError) ∧
    (∀ md, mesh_design mcOf lon lat = some md →
      table md.lower_left.standard_mesh_code = none →
      correction_2d_single mcOf table lon lat rto =
        .error (.keyError md.lower_left.standard_mesh_code)) ∧
    (∀ e, calc_correction_2d_delta mcOf table lon lat rto = .error e →
      correction_2d_go mcOf
        (fun a b => calc_correction_2d_delta mcOf table a b rto)
        initState (lon :: lons) (lat :: lats) = .error e) := by
  refine ⟨fun hmd => ?_, fun md hmd hll => ?_, fun e he => ?_⟩
  · simp [correction_2d_single, calc_correction_2d_delta, hmd]
  · simp [correction_2d_single, calc_correction_2d_delta, hmd, get_delta,
      hll, bind, Except.bind]
  · have hstep : batchStep mcOf
        (fun a b => calc_correction_2d_delta mcOf table a b rto)
        initState lon lat = .error e := by
      rcases hmc : mcOf lon lat with _ | c <;>
        simp [batchStep, hmc, initState, he, bind, Except.bind]
    simp [correction_2d_go, hstep, bind, Except.bind]

/-- C6, witness: the amended behaviour at concrete failing inputs. -/
theorem correction_2d_failure_propagation_witness :
    correction_2d_single mcOfFail tableNoUR 0 0 false =
      .error .attributeError ∧
    correction_2d_go mcOfCell
        (fun a b => calc_correction_2d_delta mcOfCell tableNoUR a b false)
        initState [0] [0] = .error (.keyError "UR") := by
  have h := correction_2d_failure_propagation mcOfFail tableNoUR 0 0 false
    [] []
  have h2 := correction_2d_failure_propagation mcOfCell tableNoUR 0 0 false
    [] []
  refine ⟨h.1 rfl, h2.2.2 (.keyError "UR") ?_⟩
  norm_num [calc_correction_2d_delta, mesh_design, adjust_mesh_code, round1,
    roundHalfEven, truncToward0, mcOfCell, get_delta, tableNoUR, Except.bind]
  simp [bind, Except.bind, Except.instMonad, Except.map]

/-! Claims C1, C2, C3 and C4: corner construction and interpolation. -/

/-- Standard bilinear interpolation as the spec words it: the weighted
average of the four corner values, `x` the longitude fraction, `y` the
latitude fraction, so the lower-right corner carries weight `(1-y)·x` and
the upper-left corner weight `y·(1-x)`. -/
def bilinear_interpolation_spec (ll lr ul ur x y : ℚ) : ℚ :=
  (1 - y) * (1 - x) * ll + (1 - y) * x * lr + y * (1 - x) * ul + y * x * ur

/-- A table whose only nonzero vector sits at the lower-right corner code. -/
def tableLR : String → Option Delta := fun c =>
  if c = "LR" then some ⟨1, 0, 0⟩ else some ⟨0, 0, 0⟩

/-- A table whose only nonzero vector sits at the upper-left corner code. -/
def tableUL : String → Option Delta := fun c =>
  if c = "UL" then some ⟨1, 0, 0⟩ else some ⟨0, 0, 0⟩

/-- C2: whenever the four corners resolve and all four table rows exist,
`_calc_correction_2d_delta` returns exactly the delta of the spec's step 4:
`x_norm = (lon_sec - ll.lon_sec) / (lr.lon_sec - ll.lon_sec)`,
`y_norm = (lat_sec - ll.lat_sec) / (ul.lat_sec - ll.lat_sec)`, and
`delta_x = (1-y)(1-x)·ll.dx + y(1-x)·lr.dx + yx·ur.dx + (1-y)x·ul.dx`, the
same weight pattern applied to the `dy` components, and the sign flipped
for the current-to-origin direction. -/
theorem calc_correction_2d_delta_spec_step4
    (mcOf : ℚ → ℚ → Option String) (table : String → Option Delta)
    (lon lat : ℚ) (rto : Bool) (md : MeshDesigns) (llD lrD ulD urD : Delta)
    (hmd : mesh_design mcOf lon lat = some md)
    (hll : table md.lower_left.standard_mesh_code = some llD)
    (hlr : table md.lower_right.standard_mesh_code = some lrD)
    (hul : table md.upper_left.standard_mesh_code = some ulD)
    (hur : table md.upper_right.standard_mesh_code = some urD) :
    calc_correction_2d_delta mcOf table lon lat rto =
      .ok (.delta
        ⟨(if rto then -1 else 1) *
          ((1 - (lat * 3600 - md.lower_left.lat) /
              (md.upper_left.lat - md.lower_left.lat)) *
            (1 - (lon * 3600 - md.lower_left.lon) /
              (md.lower_right.lon - md.lower_left.lon)) * llD.delta_x
          + (lat * 3600 - md.lower_left.lat) /
              (md.upper_left.lat - md.lower_left.lat) *
            (1 - (lon * 3600 - md.lower_left.lon) /
              (md.lower_right.lon - md.lower_left.lon)) * lrD.delta_x
          + (lat * 3600 - md.lower_left.lat) /
              (md.upper_left.lat - md.lower_left.lat) *
            ((lon * 3600 - md.lower_left.lon) /
              (md.lower_right.lon - md.lower_left.lon)) * urD.delta_x
          + (1 - (lat * 3600 - md.lower_left.lat) /
              (md.upper_left.lat - md.lower_left.lat)) *
            ((lon * 3600 - md.lower_left.lon) /
              (md.lower_right.lon - md.lower_left.lon)) * ulD.delta_x),
        (if rto then -1 else 1) *
          ((1 - (lat * 3600 - md.lower_left.lat) /
              (md.upper_left.lat - md.lower_left.lat)) *
            (1 - (lon * 3600 - md.lower_left.lon) /
              (md.lower_right.lon - md.lower_left.lon)) * llD.delta_y
          + (lat * 3600 - md.lower_left.lat) /
              (md.upper_left.lat - md.lower_left.lat) *
            (1 - (lon * 3600 - md.lower_left.lon) /
              (md.lower_right.lon - md.lower_left.lon)) * lrD.delta_y
          + (lat * 3600 - md.lower_left.lat) /
              (md.upper_left.lat - md.lower_left.lat) *
            ((lon * 3600 - md.lower_left.lon) /
              (md.lower_right.lon - md.lower_left.lon)) * urD.delta_y
          + (1 - (lat * 3600 - md.lower_left.lat) /
              (md.upper_left.lat - md.lower_left.lat)) *
            ((lon * 3600 - md.lower_left.lon) /
              (md.lower_right.lon - md.lower_left.lon)) * ulD.delta_y),
        0⟩) := by
  rcases rto with _ | _ <;>
    simp [calc_correction_2d_delta, hmd, get_delta, hll, hlr, hul, hur,
      bind, Except.bind, pure, Except.pure, neg_one_mul]

/-- C2, witness: the formula evaluated at the cell centre of a concrete
table. -/
theorem calc_correction_2d_delta_spec_step4_witness :
    calc_correction_2d_delta mcOfCell tableLR (1/32) (1/48) false =
      .ok (.delta ⟨1/4, 0, 0⟩) := by
  have h := calc_correction_2d_delta_spec_step4 mcOfCell tableLR (1/32)
    (1/48) false
    ⟨⟨"lower_left", 0, 0, "LL"⟩, ⟨"lower_right", 225, 0, "LR"⟩,
      ⟨"upper_left", 0, 150, "UL"⟩, ⟨"upper_right", 225, 150, "UR"⟩⟩
    ⟨0, 0, 0⟩ ⟨1, 0, 0⟩ ⟨0, 0, 0⟩ ⟨0, 0, 0⟩
    (by norm_num [mesh_design, adjust_mesh_code, round1, roundHalfEven,
      truncToward0, mcOfCell])
    rfl rfl rfl rfl
  rw [h]
  norm_num

/-- C1: the interpolation is NOT standard bilinear interpolation.  At the
lower-edge point `x_norm = 1/2, y_norm = 0` of a cell whose corner vectors
are `ll = 0, lr = 1, ul = 0, ur = 0`, the claim's reading — the lower edge
depends on the two lower corners, `(1-x)·ll + x·lr = 1/2` — disagrees with
the code, which weights `lower_right` by `y(1-x)` and `upper_left` by
`(1-y)x` (the two weights are swapped) and therefore returns `0` here.
Both the surrounding comment in the code ("バイリニア補間", bilinear
interpolation) and the spec describe standard bilinear interpolation, so
the swapped weights contradict the code's own documentation. -/
theorem calc_correction_2d_not_standard_bilinear :
    calc_correction_2d_delta mcOfCell tableLR (1/32) 0 false =
      .ok (.delta ⟨0, 0, 0⟩) ∧
    bilinear_interpolation_spec 0 1 0 0 (1/2) 0 = 1/2 ∧
    ((0 : ℚ) ≠ 1/2) := by
  refine ⟨?_, by norm_num [bilinear_interpolation_spec], by norm_num⟩
  norm_num [calc_correction_2d_delta, mesh_design, adjust_mesh_code, round1,
    roundHalfEven, truncToward0, mcOfCell, get_delta, tableLR, Except.bind]
  simp [bind, Except.bind, Except.instMonad, Except.map]

/-- With every table row carrying one common vector `dvec`, the
interpolation returns `dvec` itself in the origin-to-current direction and
`-dvec` in the current-to-origin direction: the four weights sum to 1, and
flipping the direction flag negates the components. -/
theorem calc_correction_2d_delta_constant_table
    (mcOf : ℚ → ℚ → Option String) (table : String → Option Delta)
    (dvec : Delta) (lon lat : ℚ) (md : MeshDesigns)
    (htable : ∀ c, table c = some dvec)
    (hmd : mesh_design mcOf lon lat = some md) :
    calc_correction_2d_delta mcOf table lon lat false =
      .ok (.delta ⟨dvec.delta_x, dvec.delta_y, 0⟩) ∧
    calc_correction_2d_delta mcOf table lon lat true =
      .ok (.delta ⟨-dvec.delta_x, -dvec.delta_y, 0⟩) := by
  constructor <;>
  · simp [calc_correction_2d_delta, hmd, get_delta, htable, bind,
      Except.bind, pure, Except.pure]
    constructor <;> ring

/-- C3, counterexample: two successive corrections with opposite direction
flags do NOT return the original coordinate, even though both query points
lie in the same cell and use identical corner mesh codes and table rows.
The forward correction at `lon = 1/32°` (cell fraction `x = 1/2`) moves the
point, the inverse correction re-interpolates at the moved point (cell
fraction `112/225`), and the composition lands at `1582/50625° ≠ 1/32°`. -/
theorem correction_2d_roundtrip_fails :
    mesh_design mcOfCell (1/32) 0 = mesh_design mcOfCell (7/225) 0 ∧
    correction_2d_single mcOfCell tableUL (1/32) 0 true = .ok ⟨7/225, 0⟩ ∧
    correction_2d_single mcOfCell tableUL (7/225) 0 false =
      .ok ⟨1582/50625, 0⟩ ∧
    ((1582/50625 : ℚ) ≠ 1/32) := by
  refine ⟨?_, ?_, ?_, by norm_num⟩
  · norm_num [mesh_design, adjust_mesh_code, round1, roundHalfEven,
      truncToward0, mcOfCell]
  · norm_num [correction_2d_single, calc_correction_2d_delta, mesh_design,
      adjust_mesh_code, round1, roundHalfEven, truncToward0, mcOfCell,
      get_delta, tableUL, Except.bind]
    simp [bind, Except.bind, Except.instMonad, Except.map]
    norm_num
  · norm_num [correction_2d_single, calc_correction_2d_delta, mesh_design,
      adjust_mesh_code, round1, roundHalfEven, truncToward0, mcOfCell,
      get_delta, tableUL, Except.bind]
    simp [bind, Except.bind, Except.instMonad, Except.map]
    norm_num

/-- C3, amended: flipping the direction flag negates the delta computed at
the SAME query point, so the round trip is exact whenever the
re-interpolated delta at the corrected point equals the delta at the
original point — in particular whenever the table rows involved all carry
one common vector — but not in general, because the inverse correction
re-interpolates at the corrected position. -/
theorem correction_2d_roundtrip_constant_field
    (mcOf : ℚ → ℚ → Option String) (table : String → Option Delta)
    (dvec : Delta) (lon lat : ℚ) (md md2 : MeshDesigns)
    (htable : ∀ c, table c = some dvec)
    (h1 : mesh_design mcOf lon lat = some md)
    (h2 : mesh_design mcOf (lon - dvec.delta_x / 3600)
      (lat - dvec.delta_y / 3600) = some md2) :
    calc_correction_2d_delta mcOf table lon lat false =
      .ok (.delta ⟨dvec.delta_x, dvec.delta_y, 0⟩) ∧
    calc_correction_2d_delta mcOf table lon lat true =
      .ok (.delta ⟨-dvec.delta_x, -dvec.delta_y, 0⟩) ∧
    correction_2d_single mcOf table lon lat true =
      .ok ⟨lon - dvec.delta_x / 3600, lat - dvec.delta_y / 3600⟩ ∧
    correction_2d_single mcOf table (lon - dvec.delta_x / 3600)
      (lat - dvec.delta_y / 3600) false = .ok ⟨lon, lat⟩ := by
  obtain ⟨hfwd, hbwd⟩ := calc_correction_2d_delta_constant_table mcOf table
    dvec lon lat md htable h1
  obtain ⟨hfwd2, -⟩ := calc_correction_2d_delta_constant_table mcOf table
    dvec (lon - dvec.delta_x / 3600) (lat - dvec.delta_y / 3600) md2
    htable h2
  refine ⟨hfwd, hbwd, ?_, ?_⟩
  · simp only [correction_2d_single, hbwd, Except.ok.injEq, XY.mk.injEq]
    constructor <;> ring
  · simp only [correction_2d_single, hfwd2, Except.ok.injEq, XY.mk.injEq]
    constructor <;> ring

/-- C3, witness: a constant correction field round-trips exactly. -/
theorem correction_2d_roundtrip_constant_field_witness :
    correction_2d_single mcOfCell (fun _ => some ⟨1, 0, 0⟩) (1/32) 0 true =
      .ok ⟨1/32 - 1/3600, 0 - 0/3600⟩ ∧
    correction_2d_single mcOfCell (fun _ => some ⟨1, 0, 0⟩)
      (1/32 - 1/3600) (0 - 0/3600) false = .ok ⟨1/32, 0⟩ := by
  have h := correction_2d_roundtrip_constant_field mcOfCell
    (fun _ => some ⟨1, 0, 0⟩) ⟨1, 0, 0⟩ (1/32) 0
    ⟨⟨"lower_left", 0, 0, "LL"⟩, ⟨"lower_right", 225, 0, "LR"⟩,
      ⟨"upper_left", 0, 150, "UL"⟩, ⟨"upper_right", 225, 150, "UR"⟩⟩
    ⟨⟨"lower_left", 0, 0, "LL"⟩, ⟨"lower_right", 225, 0, "LR"⟩,
      ⟨"upper_left", 0, 150, "UL"⟩, ⟨"upper_right", 225, 150, "UR"⟩⟩
    (fun _ => rfl)
    (by norm_num [mesh_design, adjust_mesh_code, round1, roundHalfEven,
      truncToward0, mcOfCell])
    (by norm_num [mesh_design, adjust_mesh_code, round1, roundHalfEven,
      truncToward0, mcOfCell])
  exact ⟨h.2.2.1, h.2.2.2⟩

/-- Structure of a successful `mesh_design`: the lower-left position is the
truncated quotient of the ROUNDED arc-second coordinates, and the other
three corners are offset by the fixed cell sizes. -/
theorem mesh_design_corners (mcOf : ℚ → ℚ → Option String) (lon lat : ℚ)
    (md : MeshDesigns) (hmd : mesh_design mcOf lon lat = some md) :
    md.lower_left.lon =
      (truncToward0 (round1 (lon * 3600) / 225) : ℚ) * 225 ∧
    md.lower_left.lat =
      (truncToward0 (round1 (lat * 3600) / 150) : ℚ) * 150 ∧
    md.lower_right.lon = md.lower_left.lon + 225 ∧
    md.lower_right.lat = md.lower_left.lat ∧
    md.upper_left.lon = md.lower_left.lon ∧
    md.upper_left.lat = md.lower_left.lat + 150 ∧
    md.upper_right.lon = md.lower_left.lon + 225 ∧
    md.upper_right.lat = md.lower_left.lat + 150 := by
  unfold mesh_design at hmd
  dsimp only at hmd
  split at hmd
  case _ code lr ul ur hc hlr hul hur =>
    simp only [adjust_mesh_code, Option.map_eq_some'] at hlr hul hur
    obtain ⟨clr, -, hlr⟩ := hlr
    obtain ⟨cul, -, hul⟩ := hul
    obtain ⟨cur, -, hur⟩ := hur
    obtain rfl := Option.some.inj hmd
    subst hlr hul hur
    refine ⟨rfl, rfl, rfl, ?_, ?_, rfl, rfl, rfl⟩ <;> simp
  case _ => exact absurd hmd (by simp)

/-- The half-even rounding never goes below the floor. -/
theorem roundHalfEven_ge_floor (q : ℚ) : ⌊q⌋ ≤ roundHalfEven q := by
  unfold roundHalfEven
  dsimp only
  split_ifs <;> omega

/-- Rounding a nonnegative rational to one decimal place stays
nonnegative. -/
theorem round1_nonneg (q : ℚ) (h : 0 ≤ q) : 0 ≤ round1 q := by
  unfold round1
  have h1 : (0 : ℤ) ≤ ⌊q * 10⌋ := Int.floor_nonneg.mpr (by positivity)
  have h2 := roundHalfEven_ge_floor (q * 10)
  have : (0 : ℚ) ≤ (roundHalfEven (q * 10) : ℚ) := by exact_mod_cast le_trans h1 h2
  positivity

/-- C4, amended: for a nonnegative query point, the lower-left corner of
`mesh_design` is the greatest multiple of 225 arc-seconds (longitude) and
of 150 arc-seconds (latitude) not exceeding the query's arc-second
coordinate ROUNDED to one decimal place, half to even — `round(x*3600, 1)`
runs before the flooring, so the corner is not in general below the exact
`lon*3600`/`lat*3600`.  The remaining corners are offset by exactly +225″
in longitude, +150″ in latitude, and both, respectively. -/
theorem mesh_design_floors_rounded_arcseconds
    (mcOf : ℚ → ℚ → Option String) (lon lat : ℚ) (md : MeshDesigns)
    (hlon : 0 ≤ lon) (hlat : 0 ≤ lat)
    (hmd : mesh_design mcOf lon lat = some md) :
    ((∃ k : ℤ, md.lower_left.lon = (k : ℚ) * 225) ∧
      md.lower_left.lon ≤ round1 (lon * 3600) ∧
      round1 (lon * 3600) < md.lower_left.lon + 225 ∧
      (∀ k : ℤ, (k : ℚ) * 225 ≤ round1 (lon * 3600) →
        (k : ℚ) * 225 ≤ md.lower_left.lon)) ∧
    ((∃ k : ℤ, md.lower_left.lat = (k : ℚ) * 150) ∧
      md.lower_left.lat ≤ round1 (lat * 3600) ∧
      round1 (lat * 3600) < md.lower_left.lat + 150 ∧
      (∀ k : ℤ, (k : ℚ) * 150 ≤ round1 (lat * 3600) →
        (k : ℚ) * 150 ≤ md.lower_left.lat)) ∧
    md.lower_right.lon = md.lower_left.lon + 225 ∧
    md.lower_right.lat = md.lower_left.lat ∧
    md.upper_left.lon = md.lower_left.lon ∧
    md.upper_left.lat = md.lower_left.lat + 150 ∧
    md.upper_right.lon = md.lower_left.lon + 225 ∧
    md.upper_right.lat = md.lower_left.lat + 150 := by
  obtain ⟨h1, h2, h3, h4, h5, h6, h7, h8⟩ :=
    mesh_design_corners mcOf lon lat md hmd
  have main : ∀ (q step : ℚ), 0 ≤ q → 0 < step →
      ((truncToward0 (q / step) : ℚ) * step ≤ q ∧
        q < (truncToward0 (q / step) : ℚ) * step + step ∧
        ∀ k : ℤ, (k : ℚ) * step ≤ q →
          (k : ℚ) * step ≤ (truncToward0 (q / step) : ℚ) * step) := by
    intro q step hq hstep
    have hq' : 0 ≤ q / step := by positivity
    have htr : truncToward0 (q / step) = ⌊q / step⌋ := by
      unfold truncToward0
      rw [if_neg (by exact not_lt.mpr hq')]
    rw [htr]
    refine ⟨?_, ?_, ?_⟩
    · calc ((⌊q / step⌋ : ℚ)) * step ≤ (q / step) * step := by
            exact mul_le_mul_of_nonneg_right (Int.floor_le _) hstep.le
        _ = q := div_mul_cancel₀ q hstep.ne'
    · have hlt : q / step < (⌊q / step⌋ : ℚ) + 1 := Int.lt_floor_add_one _
      calc q = (q / step) * step := (div_mul_cancel₀ q hstep.ne').symm
        _ < ((⌊q / step⌋ : ℚ) + 1) * step := by
            exact mul_lt_mul_of_pos_right hlt hstep
        _ = (⌊q / step⌋ : ℚ) * step + step := by ring
    · intro k hk
      have hk2 : (k : ℚ) ≤ q / step := by
        rw [le_div_iff₀ hstep]
        exact hk
      have hk3 : k ≤ ⌊q / step⌋ := Int.le_floor.mpr hk2
      exact mul_le_mul_of_nonneg_right (by exact_mod_cast hk3) hstep.le
  have hrlon : 0 ≤ round1 (lon * 3600) := round1_nonneg _ (by positivity)
  have hrlat : 0 ≤ round1 (lat * 3600) := round1_nonneg _ (by positivity)
  obtain ⟨a1, a2, a3⟩ := main (round1 (lon * 3600)) 225 hrlon (by norm_num)
  obtain ⟨b1, b2, b3⟩ := main (round1 (lat * 3600)) 150 hrlat (by norm_num)
  rw [h1, h2]
  exact ⟨⟨⟨truncToward0 (round1 (lon * 3600) / 225), rfl⟩, a1, a2, a3⟩,
    ⟨⟨truncToward0 (round1 (lat * 3600) / 150), rfl⟩, b1, b2, b3⟩,
    by rw [← h1, ← h2]; exact ⟨h3, h4, h5, h6, h7, h8⟩⟩

/-- C4, witness: the amended statement evaluated inside the concrete cell
`[0, 225″] × [0, 150″]`. -/
theorem mesh_design_floors_rounded_arcseconds_witness :
    (⟨⟨"lower_left", 0, 0, "M"⟩, ⟨"lower_right", 225, 0, "M"⟩,
        ⟨"upper_left", 0, 150, "M"⟩, ⟨"upper_right", 225, 150, "M"⟩⟩ :
      MeshDesigns).lower_left.lon ≤ round1 ((1/32 : ℚ) * 3600) :=
  (mesh_design_floors_rounded_arcseconds mcOfConst (1/32) (1/48) _
    (by norm_num) (by norm_num)
    (by norm_num [mesh_design, adjust_mesh_code, round1, roundHalfEven,
      truncToward0, mcOfConst])).1.2.1

/-- C4, counterexample: the flooring applies to the arc-second coordinate
ROUNDED to one decimal place, not to `lon*3600` itself.  At
`lon = 0.06249°` the arc-second value is `224.964`, which rounds to `225`,
so the computed lower-left corner sits at `225″` — above `lon*3600`,
whereas the greatest multiple of 225 not exceeding `224.964` is `0`. -/
theorem mesh_design_floor_of_unrounded_fails :
    (mesh_design mcOfConst (6249/100000) 0).map
        (fun md => md.lower_left.lon) = some 225 ∧
    (6249/100000 : ℚ) * 3600 < 225 := by
  constructor
  · norm_num [mesh_design, adjust_mesh_code, round1, roundHalfEven,
      truncToward0, mcOfConst]
  · norm_num

end Chiriin
